import Mathlib

/-!
Verification of the `toolfuse` capability-surface core against its
specification.  The core package (Registry, SchemaBuilder, Dispatcher,
Composition) is not shipped in this snapshot of the repository — only its
README, API docs and example notebooks with recorded outputs are — so the
core is modelled from the spec, and the recorded `json_schema()` outputs in
`src/examples/calculator/demo.ipynb` and `src/docs/api/index.rst` (the
WeatherLogger notebook) are taken as the authoritative observed behaviour
where they decide a claim.
-/

namespace ToolFuse

/-- Modelled from the spec: the fixed type-to-schema mapping table of the
Registry (§4.1): string, integer, number, boolean, array, object. -/
inductive SchemaType where
  | string
  | integer
  | number
  | boolean
  | array
  | object
  deriving DecidableEq, Repr

/-- Modelled from the spec: runtime values exchanged with a capability,
restricted to the primitive kinds the claims exercise.  `vnone` is the
Python value `None` (the recorded WeatherLogger run shows `Result: None`
for `log`). -/
inductive Value where
  | vnone
  | vint (n : Int)
  | vstr (s : String)
  | vbool (b : Bool)
  deriving DecidableEq, Repr

/-- Modelled from the spec: one parameter of a capability descriptor
(§3): name, semantic type, required flag (required = no default value). -/
structure Param where
  name : String
  ty : SchemaType
  required : Bool
  deriving DecidableEq, Repr

/-- Modelled from the spec: a capability descriptor (§3, Action or
Observation).  `mutating` is true for an Action.  The invocation handle is
`body`, a state-passing function bound to the owning object: the
observable state of the owner has type `σ`, and the body either returns a
new state and a raw result or fails with a message (a raised
exception). -/
structure Capability (σ : Type) where
  name : String
  mutating : Bool
  description : Option String
  params : List Param
  returnType : Option SchemaType
  body : σ → List (String × Value) → Except String (σ × Value)

/-- Modelled from the spec: a Tool owns an ordered table of capabilities
(§3); order is registration order. -/
structure Tool (σ : Type) where
  capabilities : List (Capability σ)

/-- Modelled from the spec: a MultiTool owns an ordered list of constituent
Tools (§3, §4.4). -/
structure MultiTool (σ : Type) where
  tools : List (Tool σ)

/-- Modelled from the spec: error raised by `find_action` on an unknown
name (§4.3, §7). -/
inductive FindError where
  | notFoundError (name : String)
  deriving DecidableEq, Repr

/-- Modelled from the spec: the two error kinds of `use` (§4.3, §7):
ValidationError (caller input at fault) and ExecutionError (the capability
body itself raised), distinct from each other. -/
inductive UseError where
  | validationError (msg : String)
  | executionError (msg : String)
  deriving DecidableEq, Repr

/-- Modelled from the spec: error raised by `merge` on a name collision
(§4.4). -/
inductive MergeError where
  | collisionError (name : String)
  deriving DecidableEq, Repr

/-- Modelled from the spec: fatal construction error of the Registry
(§4.1, §7), naming the offending untyped parameter. -/
inductive RegistrationError where
  | untypedParameter (name : String)
  deriving DecidableEq, Repr

/-- The ordered list of capability names of a tool. -/
def Tool.names {σ : Type} (t : Tool σ) : List String :=
  t.capabilities.map Capability.name

/-- Modelled from the spec: `find_action(name)` is exact-match lookup only
(§4.3); returns the first capability whose name equals `name` exactly, or
a NotFoundError. -/
def Tool.find_action {σ : Type} (t : Tool σ) (name : String) :
    Except FindError (Capability σ) :=
  match t.capabilities.find? (fun c => c.name == name) with
  | some c => Except.ok c
  | none => Except.error (FindError.notFoundError name)

/-- Resolution over an ordered list of tools: first constituent that
resolves the name wins. -/
def findActionList {σ : Type} : List (Tool σ) → String →
    Except FindError (Capability σ)
  | [], name => Except.error (FindError.notFoundError name)
  | t :: rest, name =>
    match t.find_action name with
    | Except.ok c => Except.ok c
    | Except.error _ => findActionList rest name

/-- Modelled from the spec: MultiTool resolution searches constituents in
list order and the first match wins (§4.4). -/
def MultiTool.find_action {σ : Type} (mt : MultiTool σ) (name : String) :
    Except FindError (Capability σ) :=
  findActionList mt.tools name

/-- Does a value already have the declared schema type? -/
def typeMatches : SchemaType → Value → Bool
  | SchemaType.string, Value.vstr _ => true
  | SchemaType.integer, Value.vint _ => true
  | SchemaType.number, Value.vint _ => true
  | SchemaType.boolean, Value.vbool _ => true
  | _, _ => false

/-- Modelled from the spec: coerce only unambiguous primitive conversions
(§4.3 step 3), e.g. a numeric string to an integer when the declared type
is integer and the string parses cleanly; a value of the declared type is
passed through unchanged; anything else fails. -/
def coerceValue (ty : SchemaType) (v : Value) : Option Value :=
  if typeMatches ty v then some v
  else
    match ty, v with
    | SchemaType.integer, Value.vstr s => (s.toInt?).map Value.vint
    | SchemaType.number, Value.vstr s => (s.toInt?).map Value.vint
    | _, _ => none

/-- Coerce every supplied argument against its declared parameter;
fails if an argument names no parameter or cannot be coerced. -/
def coerceArgs (params : List Param) :
    List (String × Value) → Option (List (String × Value))
  | [] => some []
  | (k, v) :: rest =>
    match params.find? (fun p => p.name == k) with
    | none => none
    | some p =>
      match coerceValue p.ty v with
      | none => none
      | some v' => (coerceArgs params rest).map (fun r => (k, v') :: r)

/-- Every supplied argument names a declared parameter and already has its
declared type (so coercion is the identity on it). -/
def argsWellTyped (params : List Param) (args : List (String × Value)) : Bool :=
  args.all (fun kv =>
    match params.find? (fun p => p.name == kv.1) with
    | some p => typeMatches p.ty kv.2
    | none => false)

/-- First declared required parameter absent from the supplied arguments,
if any (in declaration order). -/
def missingRequired (params : List Param) (args : List (String × Value)) :
    Option Param :=
  params.find? (fun p => p.required && !(args.any (fun kv => kv.1 == p.name)))

/-- First supplied argument whose keyword names no declared parameter, if
any. -/
def extraArg (params : List Param) (args : List (String × Value)) :
    Option (String × Value) :=
  args.find? (fun kv => !(params.any (fun p => p.name == kv.1)))

/-- Modelled from the spec: `use(capability, **arguments)` (§4.3):
(1) a missing required parameter is a ValidationError naming it;
(2) an unexpected extra argument is a ValidationError (strict default);
(3) an argument that fails to coerce is a ValidationError;
(4) the bound callable is invoked through its owner (state passing);
(5) the raw result is returned unmodified, with no wrapping envelope;
(6) an exception from the body propagates as an ExecutionError. -/
def use {σ : Type} (c : Capability σ) (s : σ)
    (args : List (String × Value)) : Except UseError (σ × Value) :=
  match missingRequired c.params args with
  | some p =>
    Except.error (UseError.validationError
      ("missing required parameter: " ++ p.name))
  | none =>
    match extraArg c.params args with
    | some kv =>
      Except.error (UseError.validationError
        ("unexpected argument: " ++ kv.1))
    | none =>
      match coerceArgs c.params args with
      | none =>
        Except.error (UseError.validationError "could not coerce arguments")
      | some cargs =>
        match c.body s cargs with
        | Except.error m => Except.error (UseError.executionError m)
        | Except.ok (s', v) => Except.ok (s', v)

/-- Is the outcome of a `use` call a ValidationError? -/
def isValidationError {α : Type} : Except UseError α → Bool
  | Except.error (UseError.validationError _) => true
  | _ => false

/-- One capability schema document.  Matching the recorded `json_schema()`
outputs in the repository, the `description` entry is optional: the
Calculator notebook records the schema of `add` with no description key (the
method has no docstring) while the WeatherLogger docs record schemas with
one, so emission of the entry follows presence of a description on the
capability. -/
structure CapabilitySchema where
  name : String
  description : Option String
  parametersType : String
  properties : List (String × SchemaType)
  required : List String
  deriving DecidableEq, Repr

/-- Modelled from the spec: the SchemaBuilder (§4.2), a pure function from
a capability descriptor to its normalized schema document; property and
required-list order is declaration order. -/
def buildSchema {σ : Type} (c : Capability σ) : CapabilitySchema :=
  { name := c.name
    description := c.description
    parametersType := "object"
    properties := c.params.map (fun p => (p.name, p.ty))
    required := (c.params.filter (fun p => p.required)).map Param.name }

/-- Modelled from the spec: tool-level `json_schema()` returns the ordered
sequence of all capability schemas (§4.2). -/
def Tool.json_schema {σ : Type} (t : Tool σ) : List CapabilitySchema :=
  t.capabilities.map buildSchema

/-- Modelled from the spec: `merge(other)` copies the capabilities of the
other tool into the table of the caller; on a name collision the default
policy rejects with a collision error (§4.4). -/
def Tool.merge {σ : Type} (A B : Tool σ) : Except MergeError (Tool σ) :=
  match B.names.find? (fun n => A.names.contains n) with
  | some n => Except.error (MergeError.collisionError n)
  | none => Except.ok ⟨A.capabilities ++ B.capabilities⟩

/-- Marker applied to a member: Action (mutating) or Observation
(read-only). -/
inductive Marker where
  | action
  | observation
  deriving DecidableEq, Repr

/-- A raw reflected parameter: its declared type may be absent. -/
structure RawParam where
  name : String
  ty : Option SchemaType
  hasDefault : Bool
  deriving DecidableEq, Repr

/-- A raw reflected member of the object being wrapped into a Tool, as the
Registry sees it: marker (if any), docstring, signature, and the bound
callable. -/
structure RawMember (σ : Type) where
  name : String
  marked : Option Marker
  doc : Option String
  params : List RawParam
  returnType : Option SchemaType
  body : σ → List (String × Value) → Except String (σ × Value)

/-- Modelled from the spec: the Registry fails fast with a
RegistrationError naming the offending parameter if any parameter lacks a
type (§4.1); required-ness is absence of a default value.  Nothing is
required of the return annotation. -/
def typedParams : List RawParam → Except RegistrationError (List Param)
  | [] => Except.ok []
  | p :: rest =>
    match p.ty with
    | none => Except.error (RegistrationError.untypedParameter p.name)
    | some ty =>
      (typedParams rest).map (fun ps => ⟨p.name, ty, !p.hasDefault⟩ :: ps)

/-- Build one capability descriptor from a marked raw member. -/
def registerMember {σ : Type} (m : RawMember σ) :
    Except RegistrationError (Capability σ) :=
  (typedParams m.params).map (fun ps =>
    { name := m.name
      mutating := m.marked == some Marker.action
      description := m.doc
      params := ps
      returnType := m.returnType
      body := m.body })

/-- Modelled from the spec: the Registry construction pass (§4.1): scan the
members in order; a member is eligible only if explicitly marked Action or
Observation; each eligible member becomes a capability, and any
introspection failure aborts construction. -/
def registerTool {σ : Type} : List (RawMember σ) →
    Except RegistrationError (Tool σ)
  | [] => Except.ok ⟨[]⟩
  | m :: rest =>
    match m.marked with
    | none => registerTool rest
    | some _ =>
      match registerMember m with
      | Except.error e => Except.error e
      | Except.ok c => (registerTool rest).map (fun t => ⟨c :: t.capabilities⟩)

/-- Keyword lookup in an argument list (first binding wins, as for Python
keyword arguments, which cannot repeat a keyword). -/
def lookupArg (args : List (String × Value)) (k : String) : Option Value :=
  (args.find? (fun kv => kv.1 == k)).map Prod.snd

/-- Body of `Calculator.add` from `src/examples/calculator/demo.ipynb`:
`def add(self, a: int, b: int) -> int: return a + b`. -/
def addBody : Unit → List (String × Value) → Except String (Unit × Value) :=
  fun s args =>
    match lookupArg args "a", lookupArg args "b" with
    | some (Value.vint a), some (Value.vint b) =>
      Except.ok (s, Value.vint (a + b))
    | _, _ => Except.error "add: bad arguments"

/-- The `add` capability of the Calculator example: an Action with
parameters `a : int` and `b : int`, both required, integer return type,
and no docstring (the notebook method body is bare), hence no
description. -/
def addCapability : Capability Unit :=
  { name := "add"
    mutating := true
    description := none
    params := [⟨"a", SchemaType.integer, true⟩, ⟨"b", SchemaType.integer, true⟩]
    returnType := some SchemaType.integer
    body := addBody }

/-- The Calculator tool of `src/examples/calculator/demo.ipynb`: its sole
capability is the Action `add`. -/
def calculator : Tool Unit := ⟨[addCapability]⟩

/-- An alternate capability also named `add`, used to exercise the
first-match-wins and collision policies (it differs from `addCapability`
in its description and body). -/
def addCapabilityAlt : Capability Unit :=
  { name := "add"
    mutating := true
    description := some "alternate add implementation"
    params := [⟨"a", SchemaType.integer, true⟩, ⟨"b", SchemaType.integer, true⟩]
    returnType := some SchemaType.integer
    body := fun s _ => Except.ok (s, Value.vint 0) }

/-- A second calculator whose `add` shadows the first one when composed
after it. -/
def calculatorAlt : Tool Unit := ⟨[addCapabilityAlt]⟩

/-- The `send_message` Action of the Chat example tool from
`src/README.md`. -/
def sendMessageCapability : Capability Unit :=
  { name := "send_message"
    mutating := true
    description := some "Logs a message to the log file."
    params := [⟨"message", SchemaType.string, true⟩]
    returnType := none
    body := fun s _ => Except.ok (s, Value.vnone) }

/-- The Chat tool from `src/README.md`. -/
def chatTool : Tool Unit := ⟨[sendMessageCapability]⟩

/-- A capability whose body always raises, to exercise ExecutionError
propagation. -/
def faultyCapability : Capability Unit :=
  { name := "boom"
    mutating := true
    description := none
    params := []
    returnType := none
    body := fun _ _ => Except.error "boom" }

/-- Body of `WeatherLogger.log` from the WeatherLogger notebook in
`src/docs/api/index.rst`: appends one record to the log file and returns
the Python value `None`; the log file is modelled as the list of written
lines. -/
def logBody : List String → List (String × Value) →
    Except String (List String × Value) :=
  fun s args =>
    match lookupArg args "message" with
    | some (Value.vstr m) => Except.ok (s ++ ["***", m], Value.vnone)
    | _ => Except.error "log: bad arguments"

/-- Body of `WeatherLogger.weather`: the real method performs a network
call, which is out of scope (§1); it is modelled as a deterministic
function of the location. -/
def weatherBody : List String → List (String × Value) →
    Except String (List String × Value) :=
  fun s args =>
    match lookupArg args "location" with
    | some (Value.vstr loc) =>
      Except.ok (s, Value.vstr (loc ++ ": Partly cloudy +11 C"))
    | _ => Except.error "weather: bad arguments"

/-- The raw reflected members of the WeatherLogger example as the Registry
sees them, from the WeatherLogger notebook in `src/docs/api/index.rst`:
`log(self, message: str)` is declared with NO return type, and
`weather(self, location: str) -> str` with one; both parameters are typed
and have no default. -/
def weatherLoggerMembers : List (RawMember (List String)) :=
  [{ name := "log"
     marked := some Marker.action
     doc := some "Logs a message to the log file."
     params := [⟨"message", some SchemaType.string, false⟩]
     returnType := none
     body := logBody },
   { name := "weather"
     marked := some Marker.observation
     doc := some "Checks the current weather from the internet using wttr.in."
     params := [⟨"location", some SchemaType.string, false⟩]
     returnType := some SchemaType.string
     body := weatherBody }]

/-- Exact-name search finds a registered capability itself when the names
of the table are distinct. -/
theorem find?_name_of_mem {σ : Type} (caps : List (Capability σ))
    (c : Capability σ) (hmem : c ∈ caps)
    (hnodup : (caps.map Capability.name).Nodup) :
    caps.find? (fun x => x.name == c.name) = some c := by
  induction caps with
  | nil => cases hmem
  | cons d rest ih =>
    rw [List.map_cons, List.nodup_cons] at hnodup
    rcases List.mem_cons.mp hmem with h | h
    · subst h
      simp [List.find?]
    · have hdmem : c.name ∈ rest.map Capability.name :=
        List.mem_map_of_mem Capability.name h
      have hne : (d.name == c.name) = false := by
        rw [beq_eq_false_iff_ne]
        intro he
        exact hnodup.1 (he ▸ hdmem)
      simp only [List.find?, hne]
      exact ih h hnodup.2

/-- Exact-name search fails on any name that is not a registered name. -/
theorem find?_name_of_not_mem {σ : Type} (caps : List (Capability σ))
    (name : String) (h : name ∉ caps.map Capability.name) :
    caps.find? (fun x => x.name == name) = none := by
  rw [List.find?_eq_none]
  intro x hx hbeq
  exact h (beq_iff_eq.mp hbeq ▸ List.mem_map_of_mem Capability.name hx)

/-- Coercion is the identity on an argument list whose values already have
their declared types. -/
theorem coerceArgs_of_wellTyped (params : List Param)
    (args : List (String × Value)) (h : argsWellTyped params args = true) :
    coerceArgs params args = some args := by
  induction args with
  | nil => rfl
  | cons kv rest ih =>
    rw [argsWellTyped, List.all_cons, Bool.and_eq_true] at h
    obtain ⟨h1, h2⟩ := h
    rcases kv with ⟨k, v⟩
    cases hf : params.find? (fun p => p.name == k) with
    | none => rw [hf] at h1; cases h1
    | some p =>
      rw [hf] at h1
      have h1' : typeMatches p.ty v = true := h1
      have hco : coerceValue p.ty v = some v := by
        simp [coerceValue, h1']
      have hrest : coerceArgs params rest = some rest := ih h2
      simp only [coerceArgs, hf, hco, hrest, Option.map]

/-- A search over a list whose front part contains no match continues in
the back part. -/
theorem find?_append_of_none {α : Type} (l₁ l₂ : List α) (p : α → Bool)
    (h : l₁.find? p = none) : (l₁ ++ l₂).find? p = l₂.find? p := by
  induction l₁ with
  | nil => rfl
  | cons a l ih =>
    have hpa : p a = false := by
      cases hpa : p a with
      | false => rfl
      | true =>
        simp only [List.find?, hpa] at h
        exact Option.noConfusion h
    simp only [List.find?, hpa] at h
    rw [List.cons_append]
    simp only [List.find?, hpa]
    exact ih h

/-- A search that succeeds in the front part of a list ignores the back
part. -/
theorem find?_append_of_some {α : Type} (l₁ l₂ : List α) (p : α → Bool)
    (c : α) (h : l₁.find? p = some c) : (l₁ ++ l₂).find? p = some c := by
  induction l₁ with
  | nil => cases h
  | cons a l ih =>
    rw [List.cons_append]
    simp only [List.find?] at h ⊢
    cases hpa : p a with
    | true => rw [hpa] at h; exact h
    | false => rw [hpa] at h; exact ih h

/-- Registration of a fully typed raw parameter list succeeds. -/
theorem typedParams_ok (ps : List RawParam)
    (h : ps.all (fun p => p.ty.isSome) = true) :
    ∃ l, typedParams ps = Except.ok l := by
  induction ps with
  | nil => exact ⟨[], rfl⟩
  | cons p rest ih =>
    rw [List.all_cons, Bool.and_eq_true] at h
    obtain ⟨h1, h2⟩ := h
    cases hty : p.ty with
    | none => rw [hty] at h1; cases h1
    | some ty =>
      obtain ⟨l, hl⟩ := ih h2
      exact ⟨⟨p.name, ty, !p.hasDefault⟩ :: l, by
        simp only [typedParams, hty, hl, Except.map]⟩

/-- C1: for every capability and every argument set that passes validation
(no missing required parameter, no unexpected extra argument, every value
of its declared type), `use` returns exactly the pair the underlying
callable returns on those arguments — the raw result with no wrapping
envelope, so a `vnone` (None) result is returned as `vnone`. -/
theorem use_valid_args_returns_raw_result {σ : Type} (c : Capability σ)
    (s : σ) (args : List (String × Value)) (s' : σ) (v : Value)
    (hmiss : missingRequired c.params args = none)
    (hextra : extraArg c.params args = none)
    (hty : argsWellTyped c.params args = true)
    (hbody : c.body s args = Except.ok (s', v)) :
    use c s args = Except.ok (s', v) := by
  simp only [use, hmiss, hextra, coerceArgs_of_wellTyped c.params args hty,
    hbody]

/-- Witness for C1 at the Calculator of the demo notebook:
`use(add, a=2, b=7)` returns the raw integer 9, exactly what `add`
itself returns. -/
theorem use_valid_args_returns_raw_result_witness :
    addBody () [("a", Value.vint 2), ("b", Value.vint 7)] =
      Except.ok ((), Value.vint 9) ∧
    use addCapability () [("a", Value.vint 2), ("b", Value.vint 7)] =
      Except.ok ((), Value.vint 9) :=
  ⟨rfl,
   use_valid_args_returns_raw_result addCapability ()
     [("a", Value.vint 2), ("b", Value.vint 7)] () (Value.vint 9)
     rfl rfl rfl rfl⟩

/-- C3: by default `use` rejects an argument set containing any keyword
that is not a declared parameter of the capability: whenever such an extra
keyword is present, the outcome of `use` is a ValidationError (never a
silent drop of the extra argument). -/
theorem use_rejects_extra_argument {σ : Type} (c : Capability σ) (s : σ)
    (args : List (String × Value))
    (h : args.any (fun kv => !(c.params.any (fun p => p.name == kv.1))) = true) :
    isValidationError (use c s args) = true := by
  have hex : ∃ kv, extraArg c.params args = some kv := by
    obtain ⟨kv, hkv, hp⟩ := List.any_eq_true.mp h
    have hs : (extraArg c.params args).isSome := by
      rw [extraArg]
      exact List.find?_isSome.mpr ⟨kv, hkv, hp⟩
    exact Option.isSome_iff_exists.mp hs
  obtain ⟨kv, hkv⟩ := hex
  unfold use
  cases hm : missingRequired c.params args with
  | some p => rfl
  | none => simp only [hkv]; rfl

/-- Witness for C3: `use(add, a=2, b=7, c=99)` on the Calculator raises a
ValidationError instead of ignoring the extra argument `c`. -/
theorem use_rejects_extra_argument_witness :
    isValidationError
      (use addCapability ()
        [("a", Value.vint 2), ("b", Value.vint 7), ("c", Value.vint 99)]) =
      true :=
  use_rejects_extra_argument addCapability ()
    [("a", Value.vint 2), ("b", Value.vint 7), ("c", Value.vint 99)] rfl

/-- C5: when a required parameter of the capability is absent from the
supplied arguments, `use` returns a ValidationError naming the missing
parameter; the error carries no new state (the state of the tool is
unchanged), and the result is identical for every possible body, so the
underlying callable is never invoked and no observable side effect can
occur. -/
theorem use_missing_required_no_side_effect {σ : Type} (c : Capability σ)
    (s : σ) (args : List (String × Value)) (p : Param)
    (h : missingRequired c.params args = some p) :
    use c s args =
      Except.error (UseError.validationError
        ("missing required parameter: " ++ p.name)) ∧
    ∀ b', use { c with body := b' } s args =
      Except.error (UseError.validationError
        ("missing required parameter: " ++ p.name)) := by
  constructor
  · simp only [use, h]
  · intro b'
    have h' : missingRequired
        ({ c with body := b' } : Capability σ).params args = some p := h
    simp only [use, h']

/-- Witness for C5: `use(add, a=2)` on the Calculator raises a
ValidationError naming the missing parameter `b`. -/
theorem use_missing_required_no_side_effect_witness :
    use addCapability () [("a", Value.vint 2)] =
      Except.error (UseError.validationError
        "missing required parameter: b") :=
  (use_missing_required_no_side_effect addCapability () [("a", Value.vint 2)]
    ⟨"b", SchemaType.integer, true⟩ rfl).1

/-- C6: an exception raised inside the body of a capability during `use`
propagates synchronously to the caller as an ExecutionError carrying the
very message the body raised — it is not swallowed, not retried (the body
is consulted exactly once in the result), and ExecutionError is distinct
from ValidationError. -/
theorem use_propagates_execution_error {σ : Type} (c : Capability σ)
    (s : σ) (args cargs : List (String × Value)) (m : String)
    (hmiss : missingRequired c.params args = none)
    (hextra : extraArg c.params args = none)
    (hco : coerceArgs c.params args = some cargs)
    (hbody : c.body s cargs = Except.error m) :
    use c s args = Except.error (UseError.executionError m) ∧
    ∀ m₁ m₂ : String,
      UseError.executionError m₁ ≠ UseError.validationError m₂ := by
  constructor
  · simp only [use, hmiss, hextra, hco, hbody]
  · intro m₁ m₂ hcontra
    cases hcontra

/-- Witness for C6: a capability whose body raises `boom` surfaces it from
`use` as an ExecutionError, and that error is not a ValidationError. -/
theorem use_propagates_execution_error_witness :
    use faultyCapability () [] =
      Except.error (UseError.executionError "boom") ∧
    UseError.executionError "boom" ≠ UseError.validationError "boom" :=
  ⟨(use_propagates_execution_error faultyCapability () [] [] "boom"
      rfl rfl rfl rfl).1,
   (use_propagates_execution_error faultyCapability () [] [] "boom"
      rfl rfl rfl rfl).2 "boom" "boom"⟩

/-- C4: `find_action` is exact-match lookup only: every registered
capability is found under its own name (the capability itself is
returned, given the tool invariant that names are unique), and any name
that equals no registered name exactly — a partial or fuzzy match
included — yields a NotFoundError. -/
theorem find_action_exact_match {σ : Type} (t : Tool σ) :
    (∀ c ∈ t.capabilities, (t.names).Nodup → t.find_action c.name = Except.ok c) ∧
    (∀ name, name ∉ t.names →
      t.find_action name = Except.error (FindError.notFoundError name)) := by
  constructor
  · intro c hc hnodup
    unfold Tool.find_action
    rw [find?_name_of_mem t.capabilities c hc hnodup]
  · intro name hname
    unfold Tool.find_action
    rw [find?_name_of_not_mem t.capabilities name hname]

/-- Witness for C4 at the Calculator: `find_action("add")` returns the
`add` capability itself, while the partial match `"ad"` raises
NotFoundError. -/
theorem find_action_exact_match_witness :
    calculator.find_action "add" = Except.ok addCapability ∧
    calculator.find_action "ad" =
      Except.error (FindError.notFoundError "ad") :=
  ⟨(find_action_exact_match calculator).1 addCapability
     (List.mem_cons_self addCapability []) (by decide),
   (find_action_exact_match calculator).2 "ad" (by decide)⟩

/-- C7: `json_schema()` is deterministic — in this model it is a pure
function of the capability table, so two calls with no intervening
mutation are definitionally the same value — and the order it emits is
the declaration order: the schema list follows the registration order of
the capabilities, the property list of each schema follows the parameter
declaration order of its capability, and the required list follows the
declaration order of the required parameters. -/
theorem json_schema_deterministic_declaration_order {σ : Type} (t : Tool σ) :
    t.json_schema = t.json_schema ∧
    t.json_schema.map CapabilitySchema.name = t.capabilities.map Capability.name ∧
    t.json_schema.map (fun sch => sch.properties.map Prod.fst) =
      t.capabilities.map (fun c => c.params.map Param.name) ∧
    t.json_schema.map CapabilitySchema.required =
      t.capabilities.map
        (fun c => (c.params.filter (fun p => p.required)).map Param.name) := by
  refine ⟨rfl, ?_, ?_, ?_⟩
  · simp [Tool.json_schema, buildSchema, List.map_map, Function.comp]
  · simp [Tool.json_schema, buildSchema, List.map_map, Function.comp]
  · simp [Tool.json_schema, buildSchema, List.map_map, Function.comp]

/-- C8: MultiTool resolution searches the constituents in construction
order and the first match wins: whenever the first constituent resolves a
name to a capability, the MultiTool resolves that name to the same
capability, whatever the remaining constituents expose — in particular
when a later constituent exposes the same name. -/
theorem multitool_first_match_wins {σ : Type} (t₁ : Tool σ)
    (rest : List (Tool σ)) (name : String) (c : Capability σ)
    (h : t₁.find_action name = Except.ok c) :
    (MultiTool.mk (t₁ :: rest)).find_action name = Except.ok c := by
  simp only [MultiTool.find_action, findActionList, h]

/-- Witness for C8: two constituents both expose `add`; the MultiTool
built from them resolves `add` to the capability of the first
constituent, not to the (different) capability of the second. -/
theorem multitool_first_match_wins_witness :
    calculatorAlt.find_action "add" = Except.ok addCapabilityAlt ∧
    (MultiTool.mk [calculator, calculatorAlt]).find_action "add" =
      Except.ok addCapability :=
  ⟨rfl,
   multitool_first_match_wins calculator [calculatorAlt] "add"
     addCapability rfl⟩

/-- C9: for tools whose capability names are unique (the Tool invariant),
a successful `A.merge(B)` yields a tool on which `find_action` resolves
every capability originally on `B`, and on which every capability
previously on `A` still resolves to itself, unchanged; and whenever any
name is shared by `A` and `B`, `merge` rejects with a collision error by
default instead of silently overwriting. -/
theorem merge_resolves_and_rejects_collision {σ : Type} (A B : Tool σ)
    (hA : A.names.Nodup) (hB : B.names.Nodup) :
    (∀ A', A.merge B = Except.ok A' →
      (∀ c ∈ B.capabilities, A'.find_action c.name = Except.ok c) ∧
      (∀ c ∈ A.capabilities, A'.find_action c.name = Except.ok c)) ∧
    (∀ n, n ∈ A.names → n ∈ B.names →
      ∃ m, A.merge B = Except.error (MergeError.collisionError m)) := by
  constructor
  · intro A' hok
    unfold Tool.merge at hok
    cases hf : B.names.find? (fun n => A.names.contains n) with
    | some n => rw [hf] at hok; cases hok
    | none =>
      rw [hf] at hok
      have hA' : A' = ⟨A.capabilities ++ B.capabilities⟩ :=
        (Except.ok.inj hok).symm
      subst hA'
      have hnocoll : ∀ n ∈ B.names, ¬(A.names.contains n = true) :=
        List.find?_eq_none.mp hf
      constructor
      · intro c hc
        have hcB : c.name ∈ B.names := List.mem_map_of_mem Capability.name hc
        have hcA : c.name ∉ A.names := by
          intro hmem
          exact hnocoll c.name hcB (List.elem_eq_true_of_mem hmem)
        unfold Tool.find_action
        have h₁ : A.capabilities.find? (fun x => x.name == c.name) = none :=
          find?_name_of_not_mem A.capabilities c.name hcA
        have h₂ : B.capabilities.find? (fun x => x.name == c.name) = some c :=
          find?_name_of_mem B.capabilities c hc hB
        rw [show (⟨A.capabilities ++ B.capabilities⟩ : Tool σ).capabilities =
          A.capabilities ++ B.capabilities from rfl,
          find?_append_of_none _ _ _ h₁, h₂]
      · intro c hc
        unfold Tool.find_action
        have h₁ : A.capabilities.find? (fun x => x.name == c.name) = some c :=
          find?_name_of_mem A.capabilities c hc hA
        rw [show (⟨A.capabilities ++ B.capabilities⟩ : Tool σ).capabilities =
          A.capabilities ++ B.capabilities from rfl,
          find?_append_of_some _ _ _ c h₁]
  · intro n hnA hnB
    have hs : (B.names.find? (fun x => A.names.contains x)).isSome :=
      List.find?_isSome.mpr ⟨n, hnB, List.elem_eq_true_of_mem hnA⟩
    obtain ⟨m, hm⟩ := Option.isSome_iff_exists.mp hs
    exact ⟨m, by unfold Tool.merge; rw [hm]⟩

/-- Witness for C9: merging the Chat tool into the Calculator succeeds
(names are disjoint); on the merged tool `find_action` resolves the
capability from Chat and still resolves the original `add` of the
Calculator unchanged; merging a second tool that also exposes `add`
rejects with a collision error. -/
theorem merge_resolves_and_rejects_collision_witness :
    calculator.merge chatTool =
      Except.ok ⟨[addCapability, sendMessageCapability]⟩ ∧
    Tool.find_action ⟨[addCapability, sendMessageCapability]⟩
      "send_message" = Except.ok sendMessageCapability ∧
    Tool.find_action ⟨[addCapability, sendMessageCapability]⟩
      "add" = Except.ok addCapability ∧
    (∃ m, calculator.merge calculatorAlt =
      Except.error (MergeError.collisionError m)) := by
  refine ⟨rfl, ?_, ?_, ?_⟩
  · exact ((merge_resolves_and_rejects_collision calculator chatTool
      (by decide) (by decide)).1
      ⟨[addCapability, sendMessageCapability]⟩ rfl).1
      sendMessageCapability
      (List.mem_cons_self sendMessageCapability [])
  · exact ((merge_resolves_and_rejects_collision calculator chatTool
      (by decide) (by decide)).1
      ⟨[addCapability, sendMessageCapability]⟩ rfl).2
      addCapability (List.mem_cons_self addCapability [])
  · exact (merge_resolves_and_rejects_collision calculator calculatorAlt
      (by decide) (by decide)).2 "add" (by decide) (by decide)

/-- C10: a marked member registers successfully and appears in
`json_schema()` as long as every one of its parameters is typed, whatever
its return annotation is — registration never consults the return type,
so a member declared without one (such as `WeatherLogger.log`) is
registered and emitted like any other. -/
theorem register_typed_params_sufficient {σ : Type}
    (members : List (RawMember σ))
    (h : members.all (fun m => m.params.all (fun p => p.ty.isSome)) = true) :
    ∃ t, registerTool members = Except.ok t ∧
      t.json_schema.map CapabilitySchema.name =
        (members.filter (fun m => m.marked.isSome)).map RawMember.name := by
  induction members with
  | nil => exact ⟨⟨[]⟩, rfl, rfl⟩
  | cons m rest ih =>
    rw [List.all_cons, Bool.and_eq_true] at h
    obtain ⟨hm, hrest⟩ := h
    obtain ⟨t, hreg, hnames⟩ := ih hrest
    cases hmark : m.marked with
    | none =>
      refine ⟨t, ?_, ?_⟩
      · simp only [registerTool, hmark, hreg]
      · rw [List.filter_cons]
        simp only [hmark, Option.isSome_none, Bool.false_eq_true, if_false]
        exact hnames
    | some mk =>
      obtain ⟨l, hl⟩ := typedParams_ok m.params hm
      refine ⟨⟨({ name := m.name
                  mutating := m.marked == some Marker.action
                  description := m.doc
                  params := l
                  returnType := m.returnType
                  body := m.body } : Capability σ) :: t.capabilities⟩, ?_, ?_⟩
      · simp only [registerTool, hmark, registerMember, hl, hreg, Except.map]
      · rw [List.filter_cons]
        simp only [hmark, Option.isSome_some, if_true, List.map_cons,
          Tool.json_schema, buildSchema]
        exact congrArg (List.cons m.name) hnames

/-- Witness for C10 at the WeatherLogger of the docs notebook: `log` is
declared without a return annotation while `weather` has one, yet
registration succeeds and the emitted schema lists both, `log`
included. -/
theorem register_typed_params_sufficient_witness :
    (weatherLoggerMembers.map RawMember.returnType =
      [none, some SchemaType.string]) ∧
    ((weatherLoggerMembers.filter (fun m => m.marked.isSome)).map
      RawMember.name = ["log", "weather"]) ∧
    (∃ t, registerTool weatherLoggerMembers = Except.ok t ∧
      t.json_schema.map CapabilitySchema.name =
        (weatherLoggerMembers.filter (fun m => m.marked.isSome)).map
          RawMember.name) :=
  ⟨rfl, rfl, register_typed_params_sufficient weatherLoggerMembers rfl⟩

/-- C2 counterexample: on the Calculator of the demo notebook — exactly
the tool the claim is about — the emitted schema has no description
entry: the one capability schema carries `none` as its description, as
the recorded output in `src/examples/calculator/demo.ipynb` shows, so a
description entry is NOT always present in every capability schema. -/
theorem calculator_schema_description_absent :
    calculator.json_schema.map CapabilitySchema.name = ["add"] ∧
    calculator.json_schema.map CapabilitySchema.description = [none] ∧
    calculator.json_schema.all (fun sch => sch.description.isSome) = false :=
  ⟨rfl, rfl, rfl⟩

/-- C2 (amended): for the Calculator whose sole capability is the Action
`add(a:int, b:int) -> int`, `json_schema()` returns a one-element list
whose element has name `add` and parameters of type `object` with
properties mapping `a` and `b` each to integer and required `[a, b]` in
declaration order — but no description entry, because `add` has no
docstring: a description entry is present only when the capability has a
description. -/
theorem calculator_json_schema_exact :
    calculator.json_schema =
      [{ name := "add"
         description := none
         parametersType := "object"
         properties := [("a", SchemaType.integer), ("b", SchemaType.integer)]
         required := ["a", "b"] }] :=
  rfl

end ToolFuse
